import Mathlib

/-!
Verification development for the bounce repository: a shallow embedding of the
per-unit slot state machine in src/src/cubesat.rs (struct SlotInfo, struct
Cubesat, Cubesat::process, and the event arms of Cubesat::run), together with
theorems settling the specification claims about it.
-/

namespace Bounce

/-- Commit type tag. The variants come from the CommitType enumeration used by
Cubesat::process (Precommit and Noncommit). -/
inductive CommitType where
  | Precommit
  | Noncommit
deriving DecidableEq

/-- Modelled from the spec: the Commit record consumed and produced by
Cubesat::process is generated from an external protobuf schema that is not under
src/; its fields are pinned by the spec (data model and on-wire layout sections)
and by every field access in src/src/cubesat.rs: typ, i (u32), j (u32), msg,
public_key, signature (byte strings), aggregated (bool). Byte strings are
modelled as lists of naturals. -/
structure Commit where
  typ : CommitType
  i : Nat
  j : Nat
  msg : List Nat
  public_key : List Nat
  signature : List Nat
  aggregated : Bool
deriving DecidableEq

/-- Modelled from the spec: supermajority is called by Cubesat::process
(src/src/cubesat.rs lines 164, 207, 222, 265) but its definition is not under
src/. The spec pins the values supermajority(1)=1, supermajority(3)=3,
supermajority(4)=3, supermajority(7)=5, and the repository test
cubesat_sign_aggregate (num_cubesats = 1, a single precommit triggers
aggregation) forces supermajority 1 ≤ 1. These values are exactly
⌊2N/3⌋ + 1, that is, Rust integer division num_cubesats * 2 / 3 + 1. -/
def supermajority (num_cubesats : Nat) : Nat :=
  num_cubesats * 2 / 3 + 1

/-- The literal threshold formula written in the spec text, ⌈2N/3⌉ + 1,
kept separately to compare with the behavior pinned by the values and tests. -/
def supermajorityCeil (n : Nat) : Nat :=
  (2 * n + 2) / 3 + 1

/-- Phase of a slot, from enum Phase in src/src/cubesat.rs. -/
inductive Phase where
  | Stop
  | First
  | Second
  | Third
deriving DecidableEq

/-- Per-unit slot state, from struct SlotInfo in src/src/cubesat.rs. -/
structure SlotInfo where
  i : Nat
  j : Nat
  phase : Phase
  signed : Bool
  aggregated : Bool
  precommits : List Commit
  noncommits : List Commit
deriving DecidableEq

/-- SlotInfo::new (src/src/cubesat.rs lines 42-52). -/
def SlotInfo.new : SlotInfo :=
  { i := 0, j := 0, phase := Phase.Stop, signed := false, aggregated := false,
    precommits := [], noncommits := [] }

/-- SlotInfo::next (src/src/cubesat.rs lines 54-61): increment i, phase to
First, clear signed, aggregated and both collections; j untouched. -/
def SlotInfo.next (s : SlotInfo) : SlotInfo :=
  { s with
    i := s.i + 1, phase := Phase.First, signed := false,
    aggregated := false, precommits := [], noncommits := [] }

/-- The BLS primitives (Bn256.sign, aggregate_signatures, aggregate_public_keys)
are an external library; Cubesat::process only pipes bytes through them, so the
embedding is parametric in the scheme. -/
structure SigScheme where
  sign : List Nat → List Nat → List Nat
  aggregate_signatures : List (List Nat) → List Nat
  aggregate_public_keys : List (List Nat) → List Nat

/-- The state of a unit relevant to process and the run-loop arms: committee
size from BounceConfig, the slot state, and the key pair
(struct Cubesat in src/src/cubesat.rs, minus the channels). -/
structure Cubesat where
  num_cubesats : Nat
  slot_info : SlotInfo
  public_key : List Nat
  private_key : List Nat
deriving DecidableEq

/-- Cubesat::aggregate (src/src/cubesat.rs lines 117-125): aggregate the
signatures and the public keys of a list of commits. -/
def Cubesat.aggregate (S : SigScheme) (commits : List Commit) :
    List Nat × List Nat :=
  (S.aggregate_signatures (commits.map Commit.signature),
   S.aggregate_public_keys (commits.map Commit.public_key))

/-- The commit obtained by self-signing an incoming commit: own signature over
its msg and own public key replace the incoming ones (the sign-if-needed step
of Cubesat::process). -/
def signedCommitFor (S : SigScheme) (c : Cubesat) (cm : Commit) : Commit :=
  { cm with
    signature := S.sign c.private_key cm.msg,
    public_key := c.public_key }

/-- Cubesat::process (src/src/cubesat.rs lines 127-285), as a pure function
from the unit state and the incoming commit to the new unit state and the list
of commits sent on result_tx, in order.

Faithfulness notes, traceable to the source:
* entry guard: if slot_info.aggregated, return (line 129);
* Phase::First mutates the incoming commit in place when signing, so the
  commit pushed onto precommits is the self-signed one (lines 148-160);
* Phase::Second and Phase::Third sign a shadowing clone inside the if-block
  (let mut commit = commit.clone(), lines 192 and 253), so the commit pushed
  onto the collection afterwards is the original incoming commit, unmodified;
* the Phase::Second noncommit aggregation branch (lines 220-234) sets
  aggregated and sends, but does not assign j, unlike the other three
  aggregation branches (lines 175, 218, 276). -/
def Cubesat.process (S : SigScheme) (c : Cubesat) (commit : Commit) :
    Cubesat × List Commit :=
  if c.slot_info.aggregated then (c, [])
  else
    match c.slot_info.phase with
    | Phase.First =>
      if commit.aggregated then
        ({ c with slot_info :=
            { c.slot_info with aggregated := true, i := commit.i, j := commit.j } },
         [])
      else if commit.typ = CommitType.Noncommit then
        (c, [])
      else
        let step :=
          if c.slot_info.signed = false then
            let commit1 := signedCommitFor S c commit
            (commit1,
             { c with slot_info := { c.slot_info with signed := true } },
             [commit1])
          else
            (commit, c, ([] : List Commit))
        let commit1 := step.1
        let c1 := step.2.1
        let sent := step.2.2
        let si := { c1.slot_info with
          precommits := c1.slot_info.precommits ++ [commit1] }
        let c2 := { c1 with slot_info := si }
        if si.precommits.length ≥ supermajority c2.num_cubesats then
          let agg := Cubesat.aggregate S si.precommits
          let commit2 := { commit1 with
            signature := agg.1, public_key := agg.2, aggregated := true }
          ({ c2 with slot_info :=
              { si with aggregated := true, j := commit2.i } },
           sent ++ [commit2])
        else
          (c2, sent)
    | Phase.Second =>
      if commit.aggregated then
        ({ c with slot_info :=
            { c.slot_info with aggregated := true, i := commit.i, j := commit.j } },
         [])
      else
        let step :=
          if c.slot_info.signed = false then
            let commit1 := signedCommitFor S c commit
            ({ c with slot_info := { c.slot_info with signed := true } },
             [commit1])
          else
            (c, ([] : List Commit))
        let c1 := step.1
        let sent := step.2
        let si :=
          if commit.typ = CommitType.Precommit then
            { c1.slot_info with
              precommits := c1.slot_info.precommits ++ [commit] }
          else if commit.typ = CommitType.Noncommit then
            { c1.slot_info with
              noncommits := c1.slot_info.noncommits ++ [commit] }
          else
            c1.slot_info
        let c2 := { c1 with slot_info := si }
        if commit.typ = CommitType.Precommit ∧
            si.precommits.length ≥ supermajority c2.num_cubesats then
          let agg := Cubesat.aggregate S si.precommits
          let commit2 := { commit with
            signature := agg.1, public_key := agg.2, aggregated := true }
          ({ c2 with slot_info :=
              { si with aggregated := true, j := commit2.i } },
           sent ++ [commit2])
        else if commit.typ = CommitType.Noncommit ∧
            si.noncommits.length ≥ supermajority c2.num_cubesats then
          let agg := Cubesat.aggregate S si.noncommits
          let commit2 := { commit with
            signature := agg.1, public_key := agg.2, aggregated := true }
          ({ c2 with slot_info := { si with aggregated := true } },
           sent ++ [commit2])
        else
          (c2, sent)
    | Phase.Third =>
      if commit.aggregated then
        ({ c with slot_info :=
            { c.slot_info with aggregated := true, i := commit.i, j := commit.j } },
         [])
      else if commit.typ = CommitType.Precommit then
        (c, [])
      else
        let step :=
          if c.slot_info.signed = false then
            let commit1 := signedCommitFor S c commit
            ({ c with slot_info := { c.slot_info with signed := true } },
             [commit1])
          else
            (c, ([] : List Commit))
        let c1 := step.1
        let sent := step.2
        let si := { c1.slot_info with
          noncommits := c1.slot_info.noncommits ++ [commit] }
        let c2 := { c1 with slot_info := si }
        if si.noncommits.length ≥ supermajority c2.num_cubesats then
          let agg := Cubesat.aggregate S si.noncommits
          let commit2 := { commit with
            signature := agg.1, public_key := agg.2, aggregated := true }
          ({ c2 with slot_info :=
              { si with aggregated := true, j := commit2.i } },
           sent ++ [commit2])
        else
          (c2, sent)
    | Phase.Stop =>
      (c, [])

/-- The byte sequence of the Rust string noncommit(a, b) built by
format! in the phase-3 arm of Cubesat::run; ASCII bytes as naturals. -/
def noncommitMsg (a b : Nat) : List Nat :=
  (("noncommit(".toList ++ Nat.toDigits 10 a ++ ", ".toList ++
    Nat.toDigits 10 b ++ ")".toList).map Char.toNat)

/-- The slot-boundary arm of Cubesat::run (src/src/cubesat.rs lines 300-304):
slot_info.next(), nothing sent. -/
def Cubesat.slotTick (c : Cubesat) : Cubesat × List Commit :=
  ({ c with slot_info := c.slot_info.next }, [])

/-- The phase-2 arm of Cubesat::run (src/src/cubesat.rs lines 305-307):
phase to Second, nothing sent. -/
def Cubesat.phase2Tick (c : Cubesat) : Cubesat × List Commit :=
  ({ c with slot_info := { c.slot_info with phase := Phase.Second } }, [])

/-- The phase-3 arm of Cubesat::run (src/src/cubesat.rs lines 308-323):
phase to Third, then sign and send the noncommit for (j+1, i),
unconditionally — neither slot_info.signed nor slot_info.aggregated is
consulted, and signed is not set. -/
def Cubesat.phase3Tick (S : SigScheme) (c : Cubesat) : Cubesat × List Commit :=
  let si := { c.slot_info with phase := Phase.Third }
  let msg := noncommitMsg (si.j + 1) si.i
  let noncommit : Commit :=
    { typ := CommitType.Noncommit, i := si.i, j := si.j, msg := msg,
      public_key := c.public_key, signature := S.sign c.private_key msg,
      aggregated := false }
  ({ c with slot_info := si }, [noncommit])

/-- Deliver a list of inbound commits through process in order, collecting
every sent commit. -/
def Cubesat.processList (S : SigScheme) (c : Cubesat) :
    List Commit → Cubesat × List Commit
  | [] => (c, [])
  | cm :: rest =>
    let r := Cubesat.process S c cm
    let r2 := Cubesat.processList S r.1 rest
    (r2.1, r.2 ++ r2.2)

/-- A concrete signature scheme used to evaluate the model at concrete
inputs: signing concatenates key and message, aggregation concatenates. -/
def trivScheme : SigScheme :=
  { sign := fun sk msg => sk ++ msg,
    aggregate_signatures := fun l => l.flatten,
    aggregate_public_keys := fun l => l.flatten }

/-- A unit with committee size 1 in the initial (Stop) slot state. -/
def cubeStop : Cubesat :=
  { num_cubesats := 1, slot_info := SlotInfo.new,
    public_key := [1], private_key := [2] }

/-- A non-aggregated precommit from a peer key, about slot 1. -/
def pc1 : Commit :=
  { typ := CommitType.Precommit, i := 1, j := 0, msg := [5],
    public_key := [9], signature := [7], aggregated := false }

/-- A non-aggregated noncommit from a peer key, about slot 1. -/
def nc1 : Commit :=
  { typ := CommitType.Noncommit, i := 1, j := 0, msg := [6],
    public_key := [9], signature := [7], aggregated := false }

/-- A unit that has already aggregated in the current slot. -/
def cubeAggregated : Cubesat :=
  { num_cubesats := 1,
    slot_info := {
      i := 1, j := 1, phase := Phase.Second, signed := true,
      aggregated := true, precommits := [], noncommits := [] },
    public_key := [1], private_key := [2] }

/-- A unit with committee size 3 in the Second phase of slot 1, which has
neither signed nor aggregated yet. -/
def cubeSecondN3 : Cubesat :=
  { num_cubesats := 3,
    slot_info := {
      i := 1, j := 0, phase := Phase.Second, signed := false,
      aggregated := false, precommits := [], noncommits := [] },
    public_key := [1], private_key := [2] }

/-- A unit with committee size 3 in the First phase of slot 0, so that the
slot index of pc1 (slot 1) mismatches the current slot. -/
def cubeFirstN3 : Cubesat :=
  { num_cubesats := 3,
    slot_info := {
      i := 0, j := 0, phase := Phase.First, signed := false,
      aggregated := false, precommits := [], noncommits := [] },
    public_key := [1], private_key := [2] }

/-- A unit in the First phase of slot 5. -/
def cubeFirstSlot5 : Cubesat :=
  { num_cubesats := 3,
    slot_info := {
      i := 5, j := 4, phase := Phase.First, signed := false,
      aggregated := false, precommits := [], noncommits := [] },
    public_key := [1], private_key := [2] }

/-- An aggregated commit about the older slot 2. -/
def aggCommitSlot2 : Commit :=
  { typ := CommitType.Precommit, i := 2, j := 2, msg := [5],
    public_key := [9], signature := [7], aggregated := true }

/-- A unit with committee size 1 in the Second phase of slot 1, which has
neither signed nor aggregated yet. -/
def cubeSecondN1 : Cubesat :=
  { num_cubesats := 1,
    slot_info := {
      i := 1, j := 0, phase := Phase.Second, signed := false,
      aggregated := false, precommits := [], noncommits := [] },
    public_key := [1], private_key := [2] }

/-- A unit with committee size 1 in the Third phase of slot 1, which has
neither signed nor aggregated yet. -/
def cubeThirdN1 : Cubesat :=
  { num_cubesats := 1,
    slot_info := {
      i := 1, j := 0, phase := Phase.Third, signed := false,
      aggregated := false, precommits := [], noncommits := [] },
    public_key := [1], private_key := [2] }

/-- The collection an incoming commit of the given type is collected into:
precommits for Precommit, noncommits for Noncommit (the push statements at
src/src/cubesat.rs lines 160, 200, 202, 261). -/
def collOf (ty : CommitType) (si : SlotInfo) : List Commit :=
  match ty with
  | CommitType.Precommit => si.precommits
  | CommitType.Noncommit => si.noncommits

/-- The phase-and-type combinations in which process collects an incoming
non-aggregated commit: First collects precommits only, Second collects both
types, Third collects noncommits only. -/
def eligible (ph : Phase) (ty : CommitType) : Prop :=
  (ph = Phase.First ∧ ty = CommitType.Precommit) ∨ ph = Phase.Second ∨
  (ph = Phase.Third ∧ ty = CommitType.Noncommit)

instance (ph : Phase) (ty : CommitType) : Decidable (eligible ph ty) := by
  unfold eligible; infer_instance

/-- The entry process pushes onto the collection for an incoming commit: a
not-yet-signed unit in First pushes the self-signed copy (the in-place
mutation at src/src/cubesat.rs lines 148-160); in every other case the
original incoming commit is pushed. -/
def pushedEntry (S : SigScheme) (c : Cubesat) (cm : Commit) : Commit :=
  if c.slot_info.phase = Phase.First ∧ c.slot_info.signed = false then
    signedCommitFor S c cm
  else cm

/-- C5 counterexample: the claim pins both the formula ⌈2N/3⌉ + 1 and the value
supermajority(1) = 1, but the formula gives 2 at N = 1; at the concrete input
N = 1 the threshold actually used by the state machine (pinned to 1 by the
repository test cubesat_sign_aggregate) differs from the claimed formula. -/
theorem C5_counterexample :
    supermajority 1 = 1 ∧ supermajorityCeil 1 = 2 ∧
    supermajority 1 ≠ supermajorityCeil 1 := by decide

/-- C5 (amended): for every committee size N ≥ 1,
supermajority(N) = ⌊2N/3⌋ + 1; in particular supermajority(1) = 1,
supermajority(3) = 3, supermajority(4) = 3 and supermajority(7) = 5. -/
theorem C5_supermajority_values (n : Nat) (h : 1 ≤ n) :
    supermajority n = 2 * n / 3 + 1 ∧
    supermajority 1 = 1 ∧ supermajority 3 = 3 ∧
    supermajority 4 = 3 ∧ supermajority 7 = 5 := by
  refine ⟨?_, by decide, by decide, by decide, by decide⟩
  simp [supermajority, Nat.mul_comm]

/-- Witness for C5 at the concrete committee size 6. -/
theorem C5_supermajority_values_witness :
    supermajority 6 = 2 * 6 / 3 + 1 ∧
    supermajority 1 = 1 ∧ supermajority 3 = 3 ∧
    supermajority 4 = 3 ∧ supermajority 7 = 5 :=
  C5_supermajority_values 6 (by decide)

/-- C8: after SlotInfo.next, signed and aggregated are false, both collections
are empty, the phase is First, i is incremented by exactly one, and j is
unchanged. -/
theorem C8_next_effect (s : SlotInfo) :
    s.next.signed = false ∧ s.next.aggregated = false ∧
    s.next.precommits = [] ∧ s.next.noncommits = [] ∧
    s.next.phase = Phase.First ∧ s.next.i = s.i + 1 ∧ s.next.j = s.j :=
  ⟨rfl, rfl, rfl, rfl, rfl, rfl, rfl⟩

/-- C9: process leaves the unit state unchanged and sends nothing whenever
aggregated is already true on entry, or the phase is Stop, or the phase is
First and the commit is a non-aggregated noncommit, or the phase is Third and
the commit is a non-aggregated precommit. -/
theorem C9_process_noop (S : SigScheme) (c : Cubesat) (cm : Commit)
    (h : c.slot_info.aggregated = true ∨ c.slot_info.phase = Phase.Stop ∨
      (c.slot_info.phase = Phase.First ∧ cm.aggregated = false ∧
        cm.typ = CommitType.Noncommit) ∨
      (c.slot_info.phase = Phase.Third ∧ cm.aggregated = false ∧
        cm.typ = CommitType.Precommit)) :
    Cubesat.process S c cm = (c, []) := by
  cases ha : c.slot_info.aggregated with
  | true => simp [Cubesat.process, ha]
  | false =>
    rcases h with h | h | ⟨h1, h2, h3⟩ | ⟨h1, h2, h3⟩
    · rw [ha] at h; exact absurd h (by decide)
    · simp [Cubesat.process, ha, h]
    · simp [Cubesat.process, ha, h1, h2, h3]
    · simp [Cubesat.process, ha, h1, h2, h3]

/-- Witness for C9: a unit in the Stop phase ignores an inbound precommit. -/
theorem C9_process_noop_witness :
    Cubesat.process trivScheme cubeStop pc1 = (cubeStop, []) :=
  C9_process_noop trivScheme cubeStop pc1 (Or.inr (Or.inl rfl))

/-- C1 (code bug): with aggregated already true, the phase-3 tick still sends
a commit for the slot — the phase-3 arm of Cubesat::run signs and sends the
(j+1, i) noncommit without consulting slot_info.aggregated, contradicting
invariant 2 in the doc comment above struct Cubesat. -/
theorem C1_phase3_emits_after_aggregated :
    cubeAggregated.slot_info.aggregated = true ∧
    (Cubesat.phase3Tick trivScheme cubeAggregated).2.length = 1 ∧
    (Cubesat.phase3Tick trivScheme cubeAggregated).2.map Commit.aggregated
      = [false] ∧
    (Cubesat.phase3Tick trivScheme cubeAggregated).2.map Commit.typ
      = [CommitType.Noncommit] :=
  ⟨rfl, rfl, rfl, rfl⟩

/-- C3 (code bug): a unit that signs an inbound precommit in the Second phase
(signed becomes true, one non-aggregated commit sent) and then handles the
phase-3 tick in the same slot sends a second non-aggregated commit — the
phase-3 arm of Cubesat::run neither consults nor sets slot_info.signed,
contradicting invariant 1 in the doc comment above struct Cubesat. -/
theorem C3_two_individual_commits :
    (Cubesat.process trivScheme cubeSecondN3 pc1).1.slot_info.signed = true ∧
    (Cubesat.process trivScheme cubeSecondN3 pc1).2.map Commit.aggregated
      = [false] ∧
    (Cubesat.phase3Tick trivScheme
        (Cubesat.process trivScheme cubeSecondN3 pc1).1).2.map Commit.aggregated
      = [false] ∧
    (Cubesat.phase3Tick trivScheme
        (Cubesat.process trivScheme cubeSecondN3 pc1).1).1.slot_info.signed
      = true :=
  ⟨rfl, rfl, rfl, rfl⟩

/-- C6 counterexample: a non-aggregated precommit whose slot index 1 differs
from the current slot index 0 is not ignored — the unit signs it, changes its
slot state and sends a commit; process never compares the two indices. -/
theorem C6_counterexample :
    pc1.i ≠ cubeFirstN3.slot_info.i ∧ pc1.aggregated = false ∧
    (Cubesat.process trivScheme cubeFirstN3 pc1).1 ≠ cubeFirstN3 ∧
    (Cubesat.process trivScheme cubeFirstN3 pc1).2 ≠ [] := by decide

/-- C7 counterexample: adopting an aggregated commit about the older slot 2
while the current slot index is 5 decreases slot_info.i from 5 to 2. -/
theorem C7_counterexample :
    (Cubesat.process trivScheme cubeFirstSlot5 aggCommitSlot2).1.slot_info.i <
      cubeFirstSlot5.slot_info.i := by decide

/-- C2 counterexample: in the Second phase the unit signs the inbound
precommit and sends the self-signed copy (carrying its own public key), but
the entry appended to precommits is the original inbound commit, still
carrying the peer key — not the self-signed modified commit. -/
theorem C2_counterexample :
    (Cubesat.process trivScheme cubeSecondN3 pc1).1.slot_info.precommits
      = [pc1] ∧
    (Cubesat.process trivScheme cubeSecondN3 pc1).2.map Commit.public_key
      = [cubeSecondN3.public_key] ∧
    pc1.public_key ≠ cubeSecondN3.public_key := by decide

/-- C2 (amended): when a not-yet-signed unit processes a non-aggregated
commit in an eligible phase, the first sent commit is the self-signed
modified commit; in First the self-signed commit is also the entry appended
to precommits, while in Second and Third the appended entry is the original
incoming commit, unmodified. -/
theorem C2_sign_emit_append (S : SigScheme) (c : Cubesat) (cm : Commit)
    (hagg : c.slot_info.aggregated = false) (hcm : cm.aggregated = false)
    (hsg : c.slot_info.signed = false) :
    (c.slot_info.phase = Phase.First → cm.typ = CommitType.Precommit →
      (Cubesat.process S c cm).2.head? = some (signedCommitFor S c cm) ∧
      (Cubesat.process S c cm).1.slot_info.precommits
        = c.slot_info.precommits ++ [signedCommitFor S c cm]) ∧
    (c.slot_info.phase = Phase.Second →
      (Cubesat.process S c cm).2.head? = some (signedCommitFor S c cm) ∧
      (cm.typ = CommitType.Precommit →
        (Cubesat.process S c cm).1.slot_info.precommits
          = c.slot_info.precommits ++ [cm]) ∧
      (cm.typ = CommitType.Noncommit →
        (Cubesat.process S c cm).1.slot_info.noncommits
          = c.slot_info.noncommits ++ [cm])) ∧
    (c.slot_info.phase = Phase.Third → cm.typ = CommitType.Noncommit →
      (Cubesat.process S c cm).2.head? = some (signedCommitFor S c cm) ∧
      (Cubesat.process S c cm).1.slot_info.noncommits
        = c.slot_info.noncommits ++ [cm]) := by
  refine ⟨?_, ?_, ?_⟩
  · intro hph hty
    simp only [Cubesat.process, hagg, hph, hcm, hty, hsg]
    split_ifs <;> simp_all
  · intro hph
    cases hty : cm.typ <;>
      · simp only [Cubesat.process, hagg, hph, hcm, hty, hsg]
        split_ifs <;> simp_all
  · intro hph hty
    simp only [Cubesat.process, hagg, hph, hcm, hty, hsg]
    split_ifs <;> simp_all

/-- Witness for C2 at the Second phase with a concrete precommit. -/
theorem C2_sign_emit_append_witness :
    (Cubesat.process trivScheme cubeSecondN3 pc1).2.head?
      = some (signedCommitFor trivScheme cubeSecondN3 pc1) ∧
    (Cubesat.process trivScheme cubeSecondN3 pc1).1.slot_info.precommits
      = [pc1] :=
  ⟨((C2_sign_emit_append trivScheme cubeSecondN3 pc1 rfl rfl rfl).2.1 rfl).1,
   ((C2_sign_emit_append trivScheme cubeSecondN3 pc1 rfl rfl rfl).2.1
      rfl).2.1 rfl⟩

/-- C4 counterexample: noncommit aggregation in the Second phase (committee
size 1, threshold 1) sets aggregated and sends the aggregated commit, but
leaves j at 0 instead of setting it to the slot index 1 of the commit. -/
theorem C4_counterexample :
    (Cubesat.process trivScheme cubeSecondN1 nc1).1.slot_info.aggregated
      = true ∧
    (Cubesat.process trivScheme cubeSecondN1 nc1).2.map Commit.aggregated
      = [false, true] ∧
    nc1.i = 1 ∧
    (Cubesat.process trivScheme cubeSecondN1 nc1).1.slot_info.j = 0 := by
  decide

/-- C4 (amended): whenever process, entered with aggregated false and handed
a non-aggregated commit, sets aggregated (a collection reached the
supermajority threshold), the last sent commit is the aggregated one, and j
is set to the slot index of the incoming commit on the First-precommit,
Second-precommit and Third-noncommit aggregation paths, while on the
Second-noncommit aggregation path j is left unchanged. -/
theorem C4_aggregation_effects (S : SigScheme) (c : Cubesat) (cm : Commit)
    (hagg : c.slot_info.aggregated = false) (hcm : cm.aggregated = false)
    (hset : (Cubesat.process S c cm).1.slot_info.aggregated = true) :
    ((Cubesat.process S c cm).2.map Commit.aggregated).getLast? = some true ∧
    (Cubesat.process S c cm).1.slot_info.j =
      (if c.slot_info.phase = Phase.Second ∧ cm.typ = CommitType.Noncommit
        then c.slot_info.j else cm.i) := by
  cases hph : c.slot_info.phase <;> cases hty : cm.typ <;>
    cases hsg : c.slot_info.signed <;>
    simp only [Cubesat.process, hagg, hcm, hph, hty, hsg] at hset ⊢ <;>
    split_ifs at hset ⊢ <;>
    simp_all [List.getLast?, signedCommitFor]

/-- Witness for C4 on the Third-noncommit aggregation path at committee
size 1. -/
theorem C4_aggregation_effects_witness :
    ((Cubesat.process trivScheme cubeThirdN1 nc1).2.map
        Commit.aggregated).getLast? = some true ∧
    (Cubesat.process trivScheme cubeThirdN1 nc1).1.slot_info.j =
      (if cubeThirdN1.slot_info.phase = Phase.Second ∧
          nc1.typ = CommitType.Noncommit
        then cubeThirdN1.slot_info.j else nc1.i) :=
  C4_aggregation_effects trivScheme cubeThirdN1 nc1 rfl rfl (by decide)

/-- C6 (amended): process never compares the slot index carried by an
incoming commit with the current slot index. Whatever slot index the commit
carries — matching or mismatched — the control flow is the same: the
resulting flags, phase and the sizes of both collections and of the sent
batch are identical. -/
theorem C6_slot_index_not_consulted (S : SigScheme) (c : Cubesat)
    (cm : Commit) (k k2 : Nat) :
    (Cubesat.process S c { cm with i := k }).1.slot_info.signed
      = (Cubesat.process S c { cm with i := k2 }).1.slot_info.signed ∧
    (Cubesat.process S c { cm with i := k }).1.slot_info.aggregated
      = (Cubesat.process S c { cm with i := k2 }).1.slot_info.aggregated ∧
    (Cubesat.process S c { cm with i := k }).1.slot_info.phase
      = (Cubesat.process S c { cm with i := k2 }).1.slot_info.phase ∧
    (Cubesat.process S c { cm with i := k }).1.slot_info.precommits.length
      = (Cubesat.process S c
          { cm with i := k2 }).1.slot_info.precommits.length ∧
    (Cubesat.process S c { cm with i := k }).1.slot_info.noncommits.length
      = (Cubesat.process S c
          { cm with i := k2 }).1.slot_info.noncommits.length ∧
    (Cubesat.process S c { cm with i := k }).2.length
      = (Cubesat.process S c { cm with i := k2 }).2.length := by
  obtain ⟨N, ⟨i, j, ph, sg, ag, pre, non⟩, pk, sk⟩ := c
  obtain ⟨ty, ci, cj, m, cpk, csg, cag⟩ := cm
  cases ph <;> cases ty <;> cases cag <;> cases ag <;> cases sg <;>
    simp [Cubesat.process, signedCommitFor] <;> split_ifs <;> simp

/-- C7 (amended): the slot tick increments i by exactly one and process
preserves i for every non-aggregated commit; process changes i only by
adopting an aggregated commit, which overwrites i with the slot index
carried by that commit — a value that need not be larger than the current
one. -/
theorem C7_slot_index_evolution (S : SigScheme) (c : Cubesat) (cm : Commit)
    (s : SlotInfo) :
    s.next.i = s.i + 1 ∧
    (cm.aggregated = false →
      (Cubesat.process S c cm).1.slot_info.i = c.slot_info.i) ∧
    (cm.aggregated = true → c.slot_info.aggregated = false →
      c.slot_info.phase ≠ Phase.Stop →
      (Cubesat.process S c cm).1.slot_info.i = cm.i) := by
  refine ⟨rfl, ?_, ?_⟩
  · intro hcm
    cases hph : c.slot_info.phase <;> cases hty : cm.typ <;>
      cases hag : c.slot_info.aggregated <;>
      cases hsg : c.slot_info.signed <;>
      simp only [Cubesat.process, hcm, hph, hty, hag, hsg] <;>
      split_ifs <;> simp
  · intro hcm hag hph
    cases hp : c.slot_info.phase <;>
      simp [Cubesat.process, hcm, hag, hp] at hph ⊢

/-- Witness for C7: adoption of the aggregated commit about slot 2 sets i to
that slot index. -/
theorem C7_slot_index_evolution_witness :
    (Cubesat.process trivScheme cubeFirstSlot5 aggCommitSlot2).1.slot_info.i
      = aggCommitSlot2.i :=
  (C7_slot_index_evolution trivScheme cubeFirstSlot5 aggCommitSlot2
    SlotInfo.new).2.2 rfl rfl (by decide)

/-- Single eligible delivery: process appends exactly one entry to the
collection of the commit type — unconditionally, with no duplicate check —
preserves the phase and the configuration, sets aggregated exactly when the
grown collection meets the supermajority threshold, and in that case the
last sent commit is the aggregated one. -/
theorem process_eligible_step (S : SigScheme) (c : Cubesat) (cm : Commit)
    (hagg : c.slot_info.aggregated = false) (hcm : cm.aggregated = false)
    (helig : eligible c.slot_info.phase cm.typ) :
    collOf cm.typ (Cubesat.process S c cm).1.slot_info
      = collOf cm.typ c.slot_info ++ [pushedEntry S c cm] ∧
    (Cubesat.process S c cm).1.slot_info.phase = c.slot_info.phase ∧
    (Cubesat.process S c cm).1.num_cubesats = c.num_cubesats ∧
    ((Cubesat.process S c cm).1.slot_info.aggregated = true ↔
      supermajority c.num_cubesats ≤ (collOf cm.typ c.slot_info).length + 1) ∧
    (supermajority c.num_cubesats ≤ (collOf cm.typ c.slot_info).length + 1 →
      ((Cubesat.process S c cm).2.map Commit.aggregated).getLast?
        = some true) := by
  rcases helig with ⟨hph, hty⟩ | hph | ⟨hph, hty⟩
  · cases hsg : c.slot_info.signed <;>
      simp only [Cubesat.process, collOf, pushedEntry, hagg, hcm, hph, hty,
        hsg] <;>
      split_ifs <;>
      simp_all [List.getLast?_append_cons, List.getLast?]
  · cases hty : cm.typ <;> cases hsg : c.slot_info.signed <;>
      simp only [Cubesat.process, collOf, pushedEntry, hagg, hcm, hph, hty,
        hsg] <;>
      split_ifs <;>
      simp_all [List.getLast?_append_cons, List.getLast?]
  · cases hsg : c.slot_info.signed <;>
      simp only [Cubesat.process, collOf, pushedEntry, hagg, hcm, hph, hty,
        hsg] <;>
      split_ifs <;>
      simp_all [List.getLast?_append_cons, List.getLast?]

/-- One delivery step of processList: the resulting unit state. -/
theorem processList_cons_fst (S : SigScheme) (c : Cubesat) (cm : Commit)
    (rest : List Commit) :
    (Cubesat.processList S c (cm :: rest)).1
      = (Cubesat.processList S (Cubesat.process S c cm).1 rest).1 := rfl

/-- One delivery step of processList: the sent commits. -/
theorem processList_cons_snd (S : SigScheme) (c : Cubesat) (cm : Commit)
    (rest : List Commit) :
    (Cubesat.processList S c (cm :: rest)).2
      = (Cubesat.process S c cm).2
        ++ (Cubesat.processList S (Cubesat.process S c cm).1 rest).2 := rfl

/-- Delivering exactly as many copies of one non-aggregated commit as the
supermajority threshold requires, in any eligible phase and from any state
whose relevant collection still lacks that many entries, fills the
collection to the threshold, sets aggregated and ends the sent batch with
the aggregated commit. -/
theorem processList_replicate_aggregates (S : SigScheme) (cm : Commit)
    (hcm : cm.aggregated = false) (m : Nat) :
    ∀ c : Cubesat, 0 < m →
      eligible c.slot_info.phase cm.typ →
      c.slot_info.aggregated = false →
      (collOf cm.typ c.slot_info).length + m = supermajority c.num_cubesats →
      (collOf cm.typ
          (Cubesat.processList S c (List.replicate m cm)).1.slot_info).length
        = supermajority c.num_cubesats ∧
      (Cubesat.processList S c (List.replicate m cm)).1.slot_info.aggregated
        = true ∧
      ((Cubesat.processList S c (List.replicate m cm)).2.map
          Commit.aggregated).getLast? = some true := by
  induction m with
  | zero => intro c h0; exact absurd h0 (lt_irrefl 0)
  | succ m ih =>
    intro c _ helig hagg hlen
    have step := process_eligible_step S c cm hagg hcm helig
    obtain ⟨hcoll, hphase, hnum, hiff, hemit⟩ := step
    cases m with
    | zero =>
      have hth : supermajority c.num_cubesats ≤
          (collOf cm.typ c.slot_info).length + 1 := le_of_eq hlen.symm
      simp only [List.replicate, Cubesat.processList, List.append_nil]
      refine ⟨?_, hiff.mpr hth, hemit hth⟩
      rw [hcoll]
      simp only [List.length_append, List.length_cons, List.length_nil]
      omega
    | succ m =>
      have hlt : (collOf cm.typ c.slot_info).length + 1 <
          supermajority c.num_cubesats := by omega
      have hagg2 : (Cubesat.process S c cm).1.slot_info.aggregated = false := by
        cases hag2 : (Cubesat.process S c cm).1.slot_info.aggregated
        · rfl
        · exact absurd (hiff.mp hag2) (not_le_of_lt hlt)
      have helig2 : eligible (Cubesat.process S c cm).1.slot_info.phase cm.typ := by
        rw [hphase]; exact helig
      have hlen2 : (collOf cm.typ (Cubesat.process S c cm).1.slot_info).length
          + (m + 1) = supermajority (Cubesat.process S c cm).1.num_cubesats := by
        rw [hcoll, hnum]
        simp only [List.length_append, List.length_cons, List.length_nil]
        omega
      have tail := ih (Cubesat.process S c cm).1 (Nat.succ_pos m) helig2
        hagg2 hlen2
      obtain ⟨t1, t2, t3⟩ := tail
      rw [hnum] at t1
      have hne : ((Cubesat.processList S (Cubesat.process S c cm).1
          (List.replicate (m + 1) cm)).2.map Commit.aggregated) ≠ [] := by
        intro hnil
        rw [hnil] at t3
        exact Option.noConfusion t3
      refine ⟨?_, ?_, ?_⟩
      · rw [List.replicate_succ, processList_cons_fst]
        exact t1
      · rw [List.replicate_succ, processList_cons_fst]
        exact t2
      · rw [List.replicate_succ, processList_cons_snd, List.map_append,
          List.getLast?_append_of_ne_nil _ hne]
        exact t3

/-- C10: process never deduplicates collection entries by signer. First, in
every eligible phase-and-type combination (First-precommit, Second with
either type, Third-noncommit) and from every non-aggregated state —
including a collection already holding entries with the same public key and
signature — a delivered non-aggregated commit appends exactly one entry to
the phase collection of its type, unconditionally. Second, as a
consequence, delivering supermajority(N) copies of a single signer commit
(identical public key and signature) yields that many entries, meets the
supermajority threshold and triggers aggregation, the aggregated commit
being sent last. -/
theorem C10_no_dedup (S : SigScheme) (c : Cubesat) (cm : Commit) (m : Nat)
    (hagg : c.slot_info.aggregated = false) (hcm : cm.aggregated = false)
    (helig : eligible c.slot_info.phase cm.typ) :
    collOf cm.typ (Cubesat.process S c cm).1.slot_info
      = collOf cm.typ c.slot_info ++ [pushedEntry S c cm] ∧
    (0 < m →
      (collOf cm.typ c.slot_info).length + m = supermajority c.num_cubesats →
      (collOf cm.typ
          (Cubesat.processList S c (List.replicate m cm)).1.slot_info).length
        = supermajority c.num_cubesats ∧
      (Cubesat.processList S c (List.replicate m cm)).1.slot_info.aggregated
        = true ∧
      ((Cubesat.processList S c (List.replicate m cm)).2.map
          Commit.aggregated).getLast? = some true) := by
  refine ⟨(process_eligible_step S c cm hagg hcm helig).1, ?_⟩
  intro h0 hlen
  exact processList_replicate_aggregates S cm hcm m c h0 helig hagg hlen

/-- Witness for C10: a unit with committee size 3 in the Second phase
receives three copies of the concrete precommit pc1: each is appended
(first conjunct shows the single-step append) and the third triggers
aggregation. -/
theorem C10_no_dedup_witness :
    collOf pc1.typ (Cubesat.process trivScheme cubeSecondN3 pc1).1.slot_info
      = [pc1] ∧
    (collOf pc1.typ (Cubesat.processList trivScheme cubeSecondN3
        (List.replicate 3 pc1)).1.slot_info).length
      = supermajority cubeSecondN3.num_cubesats ∧
    (Cubesat.processList trivScheme cubeSecondN3
        (List.replicate 3 pc1)).1.slot_info.aggregated = true ∧
    ((Cubesat.processList trivScheme cubeSecondN3 (List.replicate 3 pc1)).2.map
        Commit.aggregated).getLast? = some true := by
  have h := C10_no_dedup trivScheme cubeSecondN3 pc1 3 rfl rfl
    (Or.inr (Or.inl rfl))
  have h2 := h.2 (by decide) (by decide)
  exact ⟨h.1, h2.1, h2.2.1, h2.2.2⟩

end Bounce
